import Mathlib

set_option autoImplicit false

/-!
A verification development for the pybricksdev Hub Link & Firmware Engine.

The source tree of this repository ships its documentation (README files,
CHANGELOG, the NXT flash-driver build files) but not the Python modules
implementing the engine (`pybricksdev.tools`, `pybricksdev.firmware`,
`pybricksdev.connections`, `pybricksdev.dfu`, `pybricksdev.inline`).  Every
definition below is therefore modelled from the specification's words (and,
where the specification is silent, from the behaviour recorded in the
CHANGELOG and README files that are in the tree), and each such definition
says so in its doc comment.
-/

namespace Pybricksdev

/-- Modelled from the spec: `pybricksdev.tools.chunk` (CHANGELOG 1.0.0-alpha.4
"Added `pybricksdev.tools.chunk()` function"); the Chunked Transfer Engine
"split[s the] payload into chunks no larger than `max_write_size`" (spec §4.4).
The implementation itself is not in the source tree.  A payload is a list of
bytes (naturals); `chunk c l` splits `l` into consecutive slices of length at
most `c`. -/
def chunk (c : Nat) (l : List Nat) : List (List Nat) :=
  if c = 0 ∨ l = [] then []
  else l.take c :: chunk c (l.drop c)
termination_by l.length
decreasing_by
  rename_i h
  push_neg at h
  have h1 : 0 < l.length := List.length_pos.mpr h.2
  have h2 : 0 < c := Nat.pos_of_ne_zero h.1
  simp only [List.length_drop]
  omega

theorem chunk_nil (c : Nat) : chunk c [] = [] := by
  rw [chunk]; simp

theorem chunk_cons (c : Nat) (l : List Nat) (hc : c ≠ 0) (hl : l ≠ []) :
    chunk c l = l.take c :: chunk c (l.drop c) := by
  rw [chunk]
  simp [hc, hl]

theorem chunk_flatten (c : Nat) (hc : 0 < c) (l : List Nat) :
    (chunk c l).flatten = l := by
  generalize hn : l.length = n
  induction n using Nat.strong_induction_on generalizing l with
  | _ n ih =>
    rcases eq_or_ne l [] with rfl | hl
    · simp [chunk_nil]
    · rw [chunk_cons c l (Nat.pos_iff_ne_zero.mp hc) hl]
      have hlen : (l.drop c).length < n := by
        have h1 : 0 < l.length := List.length_pos.mpr hl
        simp only [List.length_drop]
        omega
      have := ih (l.drop c).length (by omega) (l.drop c) rfl
      simp [List.flatten, this, List.take_append_drop]

theorem chunk_size_le (c : Nat) (l : List Nat) :
    ∀ ch ∈ chunk c l, ch.length ≤ c := by
  generalize hn : l.length = n
  induction n using Nat.strong_induction_on generalizing l with
  | _ n ih =>
    intro ch hch
    rcases eq_or_ne l [] with rfl | hl
    · simp [chunk_nil] at hch
    · rcases Nat.eq_zero_or_pos c with rfl | hc
      · rw [chunk] at hch; simp at hch
      · rw [chunk_cons c l (Nat.pos_iff_ne_zero.mp hc) hl] at hch
        rcases List.mem_cons.mp hch with rfl | hch
        · simp
        · have hlen : (l.drop c).length < n := by
            have h1 : 0 < l.length := List.length_pos.mpr hl
            simp only [List.length_drop]
            omega
          exact ih (l.drop c).length (by omega) (l.drop c) rfl ch hch

/-- C3: for every payload `l` and chunk size `c > 0`, every chunk produced by
the Chunked Transfer Engine's splitter has size at most `c`, and
concatenating the chunks back in order yields exactly the original payload
(round-trip law, independent of transport). -/
theorem C3_chunk_roundtrip (c : Nat) (hc : 0 < c) (l : List Nat) :
    (chunk c l).flatten = l ∧ ∀ ch ∈ chunk c l, ch.length ≤ c :=
  ⟨chunk_flatten c hc l, chunk_size_le c l⟩

/-- Witness for C3 at chunk size 3 and a concrete 5-byte payload. -/
theorem C3_chunk_roundtrip_witness :
    (chunk 3 [1, 2, 3, 4, 5]).flatten = [1, 2, 3, 4, 5] ∧
      ∀ ch ∈ chunk 3 [1, 2, 3, 4, 5], ch.length ≤ 3 :=
  C3_chunk_roundtrip 3 (by decide) [1, 2, 3, 4, 5]

/-! ## Firmware Image Builder (spec §4.5) -/

/-- Modelled from the spec: the whole-image checksum of the Firmware Image
Builder (`pybricksdev.firmware.create_firmware_blob`, not in the source
tree).  The spec fixes only the checksum's behaviour, not its algorithm
(§9 open question); it is modelled as the byte sum reduced modulo `2^32`. -/
def checksum32 (data : List Nat) : Nat :=
  data.sum % 2 ^ 32

/-- Modelled from the spec: the four little-endian bytes of a 32-bit
checksum value, as appended at the image's fixed trailing offset. -/
def checksumFieldBytes (v : Nat) : List Nat :=
  [v % 256, v / 2 ^ 8 % 256, v / 2 ^ 16 % 256, v / 2 ^ 24 % 256]

/-- Decode a little-endian byte list back into a number (used to read the
appended checksum field back out of a built image). -/
def decodeLE (bs : List Nat) : Nat :=
  bs.foldr (fun b acc => b + 256 * acc) 0

/-- Modelled from the spec: `pybricksdev.firmware.create_firmware_blob`
(CHANGELOG 1.0.0-alpha.31), not in the source tree.  "The whole-image
checksum is computed over the concatenation of base binary + metadata +
optional script, then appended" (spec §4.5).  The base binary is used as
given — its bytes, including any trailing checksum bytes it may already
carry, enter the computation exactly once, and exactly one checksum field
is appended. -/
def create_firmware_blob (base metadata script : List Nat) : List Nat :=
  let payload := base ++ metadata ++ script
  payload ++ checksumFieldBytes (checksum32 payload)

theorem decodeLE_checksumFieldBytes (v : Nat) (hv : v < 2 ^ 32) :
    decodeLE (checksumFieldBytes v) = v := by
  simp only [decodeLE, checksumFieldBytes, List.foldr]
  omega

theorem checksum32_lt (data : List Nat) : checksum32 data < 2 ^ 32 :=
  Nat.mod_lt _ (by norm_num)

theorem sum_set (l : List Nat) (i : Nat) (v : Nat) (hi : i < l.length) :
    (l.set i v).sum + l.getD i 0 = l.sum + v := by
  induction l generalizing i with
  | nil => simp at hi
  | cons a l ih =>
    cases i with
    | zero => simp [List.set]; omega
    | succ j =>
      simp only [List.set, List.sum_cons, List.getD_cons_succ]
      have := ih j (by simpa using hi)
      omega

theorem checksum32_set_ne (payload : List Nat)
    (hbytes : ∀ x ∈ payload, x < 256) (i v : Nat)
    (hi : i < payload.length) (hv : v < 256) (hne : v ≠ payload.getD i 0) :
    checksum32 (payload.set i v) ≠ checksum32 payload := by
  intro heq
  have hold : payload.getD i 0 < 256 := by
    have : payload.getD i 0 ∈ payload := by
      rw [List.getD_eq_getElem payload 0 hi]
      exact payload.getElem_mem hi
    exact hbytes _ this
  have hsum := sum_set payload i v hi
  -- from the two checksums being equal, derive v ≡ old byte mod 2^32
  have heq' : Nat.ModEq (2 ^ 32) (payload.set i v).sum payload.sum := heq
  have h1 : Nat.ModEq (2 ^ 32) ((payload.set i v).sum + payload.getD i 0)
      (payload.sum + payload.getD i 0) := heq'.add_right _
  rw [hsum] at h1
  have h2 : Nat.ModEq (2 ^ 32) v (payload.getD i 0) :=
    Nat.ModEq.add_left_cancel (Nat.ModEq.refl payload.sum) h1
  have h3 : v % 2 ^ 32 = payload.getD i 0 % 2 ^ 32 := h2
  rw [Nat.mod_eq_of_lt (by omega), Nat.mod_eq_of_lt (by omega)] at h3
  exact hne h3

/-- C2: for every image built by `create_firmware_blob`, (a) the image is
the payload `base ++ metadata ++ script` followed by exactly four checksum
bytes, so any checksum bytes already trailing the base binary are counted
exactly once; (b) decoding the appended trailing field recovers exactly the
checksum recomputed over `base ++ metadata ++ script`; and (c) changing any
single byte of that concatenation (to a different byte value) changes the
checksum, invalidating the appended field. -/
theorem C2_firmware_checksum (base metadata script : List Nat)
    (hbytes : ∀ x ∈ base ++ metadata ++ script, x < 256) :
    (create_firmware_blob base metadata script).take
        (base ++ metadata ++ script).length = base ++ metadata ++ script ∧
    (create_firmware_blob base metadata script).length
        = (base ++ metadata ++ script).length + 4 ∧
    decodeLE ((create_firmware_blob base metadata script).drop
        (base ++ metadata ++ script).length)
        = checksum32 (base ++ metadata ++ script) ∧
    ∀ i v, i < (base ++ metadata ++ script).length → v < 256 →
      v ≠ (base ++ metadata ++ script).getD i 0 →
      checksum32 ((base ++ metadata ++ script).set i v)
        ≠ checksum32 (base ++ metadata ++ script) := by
  refine ⟨?_, ?_, ?_, ?_⟩
  · simp only [create_firmware_blob]
    exact List.take_left _ _
  · simp [create_firmware_blob, checksumFieldBytes]
    omega
  · simp only [create_firmware_blob, List.drop_left]
    exact decodeLE_checksumFieldBytes _ (checksum32_lt _)
  · intro i v hi hv hne
    exact checksum32_set_ne _ hbytes i v hi hv hne

/-- Witness for C2 on a concrete build: base `[1, 2]` with metadata `[3]`
and script `[4]`; the tamper clause is instantiated at index 0 with byte 9. -/
theorem C2_firmware_checksum_witness :
    (create_firmware_blob [1, 2] [3] [4]).take 4 = [1, 2, 3, 4] ∧
      checksum32 (([1, 2] ++ [3] ++ [4] : List Nat).set 0 9)
        ≠ checksum32 ([1, 2] ++ [3] ++ [4]) := by
  have h := C2_firmware_checksum [1, 2] [3] [4] (by decide)
  exact ⟨h.1, h.2.2.2 0 9 (by decide) (by decide) (by decide)⟩

/-! ## DFU / Bootloader Flasher (spec §4.6) -/

/-- The error taxonomy of spec §7 (the part the flasher claims need). -/
inductive FlashError where
  | SizeMismatch
  | VerifyFailed
  deriving DecidableEq

/-- Commands the flasher issues to the bootloader; `erase` is the
irreversible one the spec's precondition checks guard. -/
inductive DfuCommand where
  | erase
  | program (block : List Nat)
  | verify
  deriving DecidableEq

/-- The bootloader-mode device as the flasher sees it: its detected flash
region (the flash size is the region's length) and the log of commands
issued to it so far. -/
structure DfuDevice where
  flash : List Nat
  issued : List DfuCommand
  deriving DecidableEq

/-- Modelled from the spec: the flash operation of the DFU/Bootloader
Flasher (spec §4.6), not in the source tree.  "A size mismatch between the
image and the target flash region aborts before any erase — erasing is
irreversible"; otherwise it erases, programs in blocks reusing the chunk
discipline, and verifies.  Returns the error (if any) and the device
afterwards, with every issued command appended to the log. -/
def flashImage (blockSize : Nat) (dev : DfuDevice) (image : List Nat) :
    Option FlashError × DfuDevice :=
  if image.length ≠ dev.flash.length then
    (some FlashError.SizeMismatch, dev)
  else
    (none,
      { flash := image,
        issued := dev.issued ++ DfuCommand.erase ::
          (chunk blockSize image).map DfuCommand.program ++ [DfuCommand.verify] })

/-- Modelled from the spec: the restore operation (spec §4.6; CHANGELOG
1.0.0-alpha.4 "Size check when restoring firmware via USB/DFU"), not in the
source tree.  "The length of the restore payload must exactly equal the
detected flash size, else `SizeMismatch` and restore refuses to proceed." -/
def restoreFirmware (blockSize : Nat) (dev : DfuDevice) (backup : List Nat) :
    Option FlashError × DfuDevice :=
  if backup.length ≠ dev.flash.length then
    (some FlashError.SizeMismatch, dev)
  else
    flashImage blockSize dev backup

/-- An all-zero byte buffer of length `n`, used to name concrete firmware
images and flash regions of realistic sizes without spelling them out. -/
def zeroBytes (n : Nat) : List Nat :=
  List.replicate n 0

theorem zeroBytes_length (n : Nat) : (zeroBytes n).length = n :=
  List.length_replicate n 0

/-- C1: (a) a restore whose payload length differs from the detected flash
size fails with `SizeMismatch` and refuses to proceed — the device (its
flash content and its command log) is untouched; (b) a flash whose image
length disagrees with the target flash region's length fails with
`SizeMismatch` and issues no command at all — in particular no erase
command — so the device's flash content is unchanged on this error path. -/
theorem C1_size_mismatch_guards (blockSize : Nat) (dev : DfuDevice)
    (payload : List Nat) (hlen : payload.length ≠ dev.flash.length) :
    restoreFirmware blockSize dev payload = (some FlashError.SizeMismatch, dev) ∧
    flashImage blockSize dev payload = (some FlashError.SizeMismatch, dev) ∧
    (flashImage blockSize dev payload).2.flash = dev.flash ∧
    (flashImage blockSize dev payload).2.issued = dev.issued := by
  refine ⟨?_, ?_, ?_, ?_⟩ <;> simp [restoreFirmware, flashImage, hlen]

/-- Witness for C1 at the spec's scenario sizes: an image of declared
length 196 608 bytes against a detected flash region of 180 224 bytes. -/
theorem C1_size_mismatch_guards_witness :
    restoreFirmware 2048
        ⟨zeroBytes 180224, []⟩ (zeroBytes 196608)
      = (some FlashError.SizeMismatch, ⟨zeroBytes 180224, []⟩) ∧
    flashImage 2048
        ⟨zeroBytes 180224, []⟩ (zeroBytes 196608)
      = (some FlashError.SizeMismatch, ⟨zeroBytes 180224, []⟩) ∧
    (flashImage 2048 ⟨zeroBytes 180224, []⟩
        (zeroBytes 196608)).2.flash = zeroBytes 180224 ∧
    (flashImage 2048 ⟨zeroBytes 180224, []⟩
        (zeroBytes 196608)).2.issued = [] :=
  C1_size_mismatch_guards 2048 ⟨zeroBytes 180224, []⟩ (zeroBytes 196608)
    (show (zeroBytes 196608).length ≠ (zeroBytes 180224).length by
      rw [zeroBytes_length, zeroBytes_length]; decide)

/-! ## Connection State Machine (spec §4.3) -/

/-- The states of the Connection state machine (spec §4.3;
`pybricksdev.connections`, not in the source tree). -/
inductive ConnState where
  | disconnected
  | connecting
  | negotiating
  | ready
  | downloading
  | running
  | disconnecting
  | faulted
  deriving DecidableEq

/-- Modelled from the spec: the transition relation of the Connection state
machine (spec §4.3).  `Disconnected → Connecting → Negotiating → Ready →
(Downloading | Running) → Disconnecting → Disconnected`; `Connecting`
returns to `Disconnected` on `ConnectError`; `Downloading` and `Running`
return to `Ready` on success; `Faulted` is terminal except for explicit
teardown to `Disconnected`, and is reachable from any non-terminal state on
a protocol or transport error. -/
def allowedTransition : ConnState → ConnState → Bool
  | .disconnected, .connecting => true
  | .connecting, .negotiating => true
  | .connecting, .disconnected => true
  | .negotiating, .ready => true
  | .ready, .downloading => true
  | .ready, .running => true
  | .ready, .disconnecting => true
  | .downloading, .ready => true
  | .downloading, .disconnecting => true
  | .running, .ready => true
  | .running, .disconnecting => true
  | .disconnecting, .disconnected => true
  | .faulted, .disconnected => true
  | .faulted, _ => false
  | _, .faulted => true
  | _, _ => false

/-- A run of the state machine is a list of states whose consecutive pairs
are allowed transitions. -/
def ValidRun (l : List ConnState) : Prop :=
  List.Chain' (fun a b => allowedTransition a b = true) l

theorem into_running_from_ready (s : ConnState)
    (h : allowedTransition s ConnState.running = true) : s = ConnState.ready := by
  cases s <;> simp [allowedTransition] at h ⊢

theorem run_running_ready (l : List ConnState) (a : ConnState)
    (h : ValidRun (a :: l)) (hmem : ConnState.running ∈ l) :
    ConnState.ready ∈ a :: l := by
  induction l generalizing a with
  | nil => simp at hmem
  | cons b l ih =>
    rw [ValidRun, List.chain'_cons] at h
    rcases List.mem_cons.mp hmem with rfl | hmem
    · have := into_running_from_ready a h.1
      exact this ▸ List.mem_cons_self _ _
    · exact List.mem_cons_of_mem _ (ih b h.2 hmem)

/-- C5: in the Connection state machine, (a) there is no transition taking
`Disconnected` directly to `Running`; (b) every valid run that starts at
`Disconnected` and reaches `Running` passes through `Ready` first; and
(c) from `Faulted` the only outgoing transition is to `Disconnected`
(explicit teardown). -/
theorem C5_state_machine_invariants :
    allowedTransition ConnState.disconnected ConnState.running = false ∧
    (∀ l : List ConnState, ValidRun (ConnState.disconnected :: l) →
      ConnState.running ∈ l → ConnState.ready ∈ l) ∧
    (∀ s : ConnState, allowedTransition ConnState.faulted s = true →
      s = ConnState.disconnected) := by
  refine ⟨rfl, ?_, ?_⟩
  · intro l h hmem
    rcases List.mem_cons.mp (run_running_ready l ConnState.disconnected h hmem) with
      heq | hm
    · exact absurd heq (by decide)
    · exact hm
  · intro s h
    cases s <;> simp [allowedTransition] at h ⊢

/-- Witness for C5 on the canonical session run
`Disconnected, Connecting, Negotiating, Ready, Running`. -/
theorem C5_state_machine_invariants_witness :
    ConnState.ready ∈ [ConnState.connecting, ConnState.negotiating,
      ConnState.ready, ConnState.running] :=
  C5_state_machine_invariants.2.1
    [ConnState.connecting, ConnState.negotiating, ConnState.ready,
      ConnState.running]
    (by simp [ValidRun, List.chain'_cons, allowedTransition]) (by decide)

/-- Protocol versions, compared lexicographically (major, then minor). -/
def versionLt (a b : Nat × Nat) : Bool :=
  a.1 < b.1 || (a.1 == b.1 && a.2 < b.2)

/-- The error raised by a failed version handshake (spec §7). -/
inductive NegotiationError where
  | IncompatibleProtocol
  deriving DecidableEq

/-- Modelled from the spec: the `Negotiating` step of the Connection state
machine (spec §4.3; CHANGELOG 1.0.0-alpha.2 "Check Pybricks protocol
version when connecting"), not in the source tree.  "A version below the
minimum supported is a hard `IncompatibleProtocol` error → `Faulted` (not
retried automatically)"; otherwise negotiation succeeds into `Ready`. -/
def negotiate (advertised minSupported : Nat × Nat) :
    ConnState × Option NegotiationError :=
  if versionLt advertised minSupported then
    (ConnState.faulted, some NegotiationError.IncompatibleProtocol)
  else
    (ConnState.ready, none)

/-- C6: whenever the advertised protocol version is below the minimum
supported version, negotiation fails with `IncompatibleProtocol` and lands
in `Faulted`, not `Ready`; and `Faulted` offers no transition back into the
handshake (`Connecting`/`Negotiating`) nor into `Ready`, so the connection
is not retried automatically and never reaches `Ready`. -/
theorem C6_incompatible_protocol (advertised minSupported : Nat × Nat)
    (h : versionLt advertised minSupported = true) :
    negotiate advertised minSupported
      = (ConnState.faulted, some NegotiationError.IncompatibleProtocol) ∧
    (negotiate advertised minSupported).1 ≠ ConnState.ready ∧
    allowedTransition ConnState.faulted ConnState.connecting = false ∧
    allowedTransition ConnState.faulted ConnState.negotiating = false ∧
    allowedTransition ConnState.faulted ConnState.ready = false := by
  refine ⟨?_, ?_, rfl, rfl, rfl⟩ <;> simp [negotiate, h]

/-- Witness for C6 at the spec's scenario: advertised version 0.9 against
minimum supported version 1.0. -/
theorem C6_incompatible_protocol_witness :
    negotiate (0, 9) (1, 0)
      = (ConnState.faulted, some NegotiationError.IncompatibleProtocol) ∧
    (negotiate (0, 9) (1, 0)).1 ≠ ConnState.ready ∧
    allowedTransition ConnState.faulted ConnState.connecting = false ∧
    allowedTransition ConnState.faulted ConnState.negotiating = false ∧
    allowedTransition ConnState.faulted ConnState.ready = false :=
  C6_incompatible_protocol (0, 9) (1, 0) (by decide)

/-! ## Chunked Transfer Engine (spec §4.4) -/

/-- Observable events of a chunked transfer: a chunk write going out, the
hub's echoed checksum matching or mismatching, and a progress report. -/
inductive XferEvent where
  | sent (chunkIndex size : Nat)
  | ackMatched (chunkIndex size : Nat)
  | ackMismatch (chunkIndex : Nat)
  | progressReport (offsetVal : Nat)
  deriving DecidableEq

/-- Result of repeatedly attempting one chunk: the events produced, whether
an attempt finally succeeded, how many sends were used, and the next send
sequence number (the oracle index). -/
structure AttemptResult where
  trace : List XferEvent
  ok : Bool
  sends : Nat
  nextSeq : Nat
  deriving DecidableEq

/-- Outcome of a whole transfer: the event trace, the final acknowledged
offset (`none` models `TransferFailed`: the bounded retry count was
exhausted), and the total number of chunks sent. -/
structure XferOutcome where
  trace : List XferEvent
  final : Option Nat
  chunksSent : Nat
  deriving DecidableEq

/-- Modelled from the spec: the per-chunk send/acknowledge loop of the
Chunked Transfer Engine (spec §4.4), not in the source tree.  "If the
echoed checksum does not match, resend the same chunk (bounded retry count,
then `TransferFailed`); otherwise advance the offset and report progress
(post-chunk, not pre-chunk)."  `oracle sq` tells whether the echoed
checksum of the `sq`-th send matches; `retries` is the number of resends
still allowed for this chunk. -/
def sendAttempts (oracle : Nat → Bool) (idx size off sq : Nat) :
    Nat → AttemptResult
  | 0 =>
    if oracle sq then
      ⟨[XferEvent.sent idx size, XferEvent.ackMatched idx size,
        XferEvent.progressReport (off + size)], true, 1, sq + 1⟩
    else
      ⟨[XferEvent.sent idx size, XferEvent.ackMismatch idx], false, 1, sq + 1⟩
  | r + 1 =>
    if oracle sq then
      ⟨[XferEvent.sent idx size, XferEvent.ackMatched idx size,
        XferEvent.progressReport (off + size)], true, 1, sq + 1⟩
    else
      let rest := sendAttempts oracle idx size off (sq + 1) r
      ⟨XferEvent.sent idx size :: XferEvent.ackMismatch idx :: rest.trace,
        rest.ok, rest.sends + 1, rest.nextSeq⟩

/-- Modelled from the spec: the chunk loop of the Chunked Transfer Engine
(spec §4.4), not in the source tree.  Chunks are delivered in order; a
chunk whose retries are exhausted aborts the transfer with
`TransferFailed` (`final = none`); on success the final acknowledged
offset equals the bytes delivered. -/
def transferChunks (retryLimit : Nat) (oracle : Nat → Bool) :
    List (List Nat) → Nat → Nat → Nat → XferOutcome
  | [], _, off, _ => ⟨[], some off, 0⟩
  | ch :: rest, idx, off, sq =>
    let a := sendAttempts oracle idx ch.length off sq retryLimit
    if a.ok then
      let r := transferChunks retryLimit oracle rest (idx + 1)
        (off + ch.length) a.nextSeq
      ⟨a.trace ++ r.trace, r.final, a.sends + r.chunksSent⟩
    else
      ⟨a.trace, none, a.sends⟩

/-- Modelled from the spec: a whole chunked transfer — split the payload
with `chunk`, then drive the chunk loop from offset 0. -/
def runTransfer (retryLimit : Nat) (oracle : Nat → Bool) (chunkSize : Nat)
    (payload : List Nat) : XferOutcome :=
  transferChunks retryLimit oracle (chunk chunkSize payload) 0 0 0

/-- C4: (a) a 45-byte payload at chunk size 20 splits into exactly 3 chunks
of sizes 20, 20 and 5; (b) when the echoed checksum of the 2nd chunk
mismatches exactly once (send sequence number 1), the engine completes
successfully with a final acknowledged offset of 45 and a total of 4
chunks sent; (c) in general, a checksum mismatch with retries remaining
makes the engine resend the very same chunk at the very same offset (one
more send, one fewer retry left, outcome otherwise unchanged); and (d) a
mismatch with the bounded retry count exhausted fails the chunk, and a
failed chunk makes the whole transfer fail with `TransferFailed`
(`final = none`). -/
theorem C4_transfer_retry :
    (chunk 20 (zeroBytes 45)).map List.length = [20, 20, 5] ∧
    (runTransfer 3 (fun n => !(n == 1)) 20 (zeroBytes 45)).final = some 45 ∧
    (runTransfer 3 (fun n => !(n == 1)) 20 (zeroBytes 45)).chunksSent = 4 ∧
    (∀ (oracle : Nat → Bool) (idx size off sq r : Nat), oracle sq = false →
      sendAttempts oracle idx size off sq (r + 1)
        = ⟨XferEvent.sent idx size :: XferEvent.ackMismatch idx ::
            (sendAttempts oracle idx size off (sq + 1) r).trace,
          (sendAttempts oracle idx size off (sq + 1) r).ok,
          (sendAttempts oracle idx size off (sq + 1) r).sends + 1,
          (sendAttempts oracle idx size off (sq + 1) r).nextSeq⟩) ∧
    (∀ (oracle : Nat → Bool) (idx size off sq : Nat), oracle sq = false →
      (sendAttempts oracle idx size off sq 0).ok = false) ∧
    (∀ (retryLimit : Nat) (oracle : Nat → Bool) (ch : List Nat)
        (rest : List (List Nat)) (idx off sq : Nat),
      (sendAttempts oracle idx ch.length off sq retryLimit).ok = false →
      (transferChunks retryLimit oracle (ch :: rest) idx off sq).final
        = none) := by
  have hc : chunk 20 (zeroBytes 45) = [zeroBytes 20, zeroBytes 20, zeroBytes 5] := by
    simp [chunk, zeroBytes]
  refine ⟨?_, ?_, ?_, ?_, ?_, ?_⟩
  · rw [hc]; simp [zeroBytes]
  · simp only [runTransfer, hc]; decide
  · simp only [runTransfer, hc]; decide
  · intro oracle idx size off sq r h
    simp [sendAttempts, h]
  · intro oracle idx size off sq h
    simp [sendAttempts, h]
  · intro retryLimit oracle ch rest idx off sq h
    simp [transferChunks, h]

/-- Witness for C4: a transfer whose single chunk mismatches with no
retries allowed fails with `TransferFailed` (`final = none`). -/
theorem C4_transfer_retry_witness :
    (transferChunks 0 (fun _ => false) [[7]] 0 0 0).final = none :=
  C4_transfer_retry.2.2.2.2.2 0 (fun _ => false) [7] [] 0 0 0 (by decide)

/-- Total bytes acknowledged by the hub within a trace: the sum of the
sizes carried by the matched-checksum acknowledgements. -/
def ackedBytes : List XferEvent → Nat
  | [] => 0
  | XferEvent.ackMatched _ size :: rest => size + ackedBytes rest
  | _ :: rest => ackedBytes rest

/-- The post-chunk progress discipline: scanning the trace while keeping a
running count of acknowledged bytes (starting from `acked`), every progress
report must equal the bytes acknowledged strictly before it — progress
never runs ahead of acknowledgements. -/
def progressOk (acked : Nat) : List XferEvent → Bool
  | [] => true
  | XferEvent.progressReport o :: rest => o == acked && progressOk acked rest
  | XferEvent.ackMatched _ size :: rest => progressOk (acked + size) rest
  | XferEvent.sent _ _ :: rest => progressOk acked rest
  | XferEvent.ackMismatch _ :: rest => progressOk acked rest

theorem progressOk_append (t1 t2 : List XferEvent) (a : Nat) :
    progressOk a (t1 ++ t2)
      = (progressOk a t1 && progressOk (a + ackedBytes t1) t2) := by
  induction t1 generalizing a with
  | nil => simp [progressOk, ackedBytes]
  | cons e t1 ih =>
    cases e with
    | sent i s => simp [progressOk, ackedBytes, ih]
    | ackMatched i s =>
      simp [progressOk, ackedBytes, ih, Nat.add_assoc]
    | ackMismatch i => simp [progressOk, ackedBytes, ih]
    | progressReport o =>
      simp [progressOk, ackedBytes, ih, Bool.and_assoc]

theorem sendAttempts_progressOk (oracle : Nat → Bool) (idx size off sq r : Nat) :
    progressOk off (sendAttempts oracle idx size off sq r).trace = true ∧
    ackedBytes (sendAttempts oracle idx size off sq r).trace
      = (if (sendAttempts oracle idx size off sq r).ok then size else 0) := by
  induction r generalizing sq with
  | zero =>
    by_cases h : oracle sq = true
    · simp [sendAttempts, h, progressOk, ackedBytes]
    · rw [Bool.not_eq_true] at h
      simp [sendAttempts, h, progressOk, ackedBytes]
  | succ r ih =>
    by_cases h : oracle sq = true
    · simp [sendAttempts, h, progressOk, ackedBytes]
    · rw [Bool.not_eq_true] at h
      have := ih (sq + 1)
      simp only [sendAttempts, h, Bool.false_eq_true, if_false, progressOk,
        ackedBytes]
      exact this

theorem transferChunks_progressOk (retryLimit : Nat) (oracle : Nat → Bool)
    (chunks : List (List Nat)) (idx off sq : Nat) :
    progressOk off (transferChunks retryLimit oracle chunks idx off sq).trace
      = true := by
  induction chunks generalizing idx off sq with
  | nil => simp [transferChunks, progressOk]
  | cons ch rest ih =>
    have ha := sendAttempts_progressOk oracle idx ch.length off sq retryLimit
    by_cases h : (sendAttempts oracle idx ch.length off sq retryLimit).ok = true
    · simp only [transferChunks, h, if_true, progressOk_append, ha.1,
        Bool.true_and, ha.2, h]
      exact ih _ _ _
    · rw [Bool.not_eq_true] at h
      simp only [transferChunks, h, Bool.false_eq_true, if_false]
      exact ha.1

/-- C8: in every chunked transfer's event trace, the reported progress only
ever counts bytes already acknowledged by the hub: scanning the trace,
every progress report equals the total size of the matched
acknowledgements strictly before it (progress is updated post-chunk, never
pre-chunk). -/
theorem C8_progress_after_ack (retryLimit : Nat) (oracle : Nat → Bool)
    (chunkSize : Nat) (payload : List Nat) :
    progressOk 0 (runTransfer retryLimit oracle chunkSize payload).trace
      = true :=
  transferChunks_progressOk retryLimit oracle (chunk chunkSize payload) 0 0 0

/-! ## Disconnect drains buffered output (spec §4.3 `Disconnecting`) -/

/-- The Connection during teardown: the output notifications still
buffered (in flight when disconnect was requested), the notifications
already delivered to the subscriber, whether the Transport is still open,
and the current state. -/
structure TeardownState where
  pending : List (List Nat)
  delivered : List (List Nat)
  transportOpen : Bool
  connState : ConnState
  deriving DecidableEq

/-- Modelled from the spec: one step of the `Disconnecting` procedure
(spec §4.3 invariant, "the race fix"; CHANGELOG 1.0.0-alpha.4 "Wait for
some time to allow program output to be received before disconnecting" and
1.0.0-alpha.25 race-condition fix), not in the source tree.  The teardown
first delivers every buffered notification, in order; only once the buffer
is empty does it close the Transport, and only once the Transport is
closed does it enter `Disconnected`. -/
def teardownStep (s : TeardownState) : TeardownState :=
  match s.pending with
  | p :: rest =>
      { s with pending := rest, delivered := s.delivered ++ [p] }
  | [] =>
      if s.transportOpen then { s with transportOpen := false }
      else { s with connState := ConnState.disconnected }

/-- Iterate the teardown procedure `n` steps. -/
def teardownRun (n : Nat) (s : TeardownState) : TeardownState :=
  match n with
  | 0 => s
  | n + 1 => teardownRun n (teardownStep s)

/-- The teardown safety invariant: the notifications are conserved (what is
delivered plus what is still pending is exactly the original buffer, in
order), the Transport is only ever closed with an empty buffer, and the
`Disconnected` state is only ever reached with an empty buffer and a
closed Transport. -/
def TeardownInv (total : List (List Nat)) (s : TeardownState) : Prop :=
  s.delivered ++ s.pending = total ∧
  (s.transportOpen = false → s.pending = []) ∧
  (s.connState = ConnState.disconnected →
    s.pending = [] ∧ s.transportOpen = false)

theorem teardownStep_inv (total : List (List Nat)) (s : TeardownState)
    (h : TeardownInv total s) : TeardownInv total (teardownStep s) := by
  obtain ⟨h1, h2, h3⟩ := h
  rcases hp : s.pending with _ | ⟨p, rest⟩
  · rcases ho : s.transportOpen with _ | _
    · -- buffer empty, transport already closed: enter Disconnected
      refine ⟨?_, ?_, ?_⟩
      · simpa [teardownStep, hp, ho] using h1
      · intro _
        simp [teardownStep, hp, ho]
      · intro _
        simp [teardownStep, hp, ho]
    · -- buffer empty, transport open: close the transport
      refine ⟨?_, ?_, ?_⟩
      · simpa [teardownStep, hp, ho] using h1
      · intro _
        simp [teardownStep, hp, ho]
      · intro hc
        simp only [teardownStep, hp, ho, if_true] at hc
        exact absurd (h3 hc).2 (by simp [ho])
  · -- buffer nonempty: deliver the head notification
    refine ⟨?_, ?_, ?_⟩
    · simp only [teardownStep, hp]
      rw [← h1, hp]
      simp
    · intro hc
      simp only [teardownStep, hp] at hc
      rw [h2 hc] at hp
      simp at hp
    · intro hc
      simp only [teardownStep, hp] at hc
      have := (h3 hc).1
      rw [this] at hp
      simp at hp

theorem teardownRun_inv (total : List (List Nat)) (n : Nat)
    (s : TeardownState) (h : TeardownInv total s) :
    TeardownInv total (teardownRun n s) := by
  induction n generalizing s with
  | zero => exact h
  | succ n ih => exact ih _ (teardownStep_inv total s h)

theorem teardownRun_drains (pending : List (List Nat)) (delivered : List (List Nat))
    (st : ConnState) :
    teardownRun (pending.length + 2)
        ⟨pending, delivered, true, st⟩
      = ⟨[], delivered ++ pending, false, ConnState.disconnected⟩ := by
  induction pending generalizing delivered with
  | nil => simp [teardownRun, teardownStep]
  | cons p rest ih =>
    show teardownRun (rest.length + 2 + 1) _ = _
    rw [teardownRun]
    have hstep : teardownStep ⟨p :: rest, delivered, true, st⟩
        = ⟨rest, delivered ++ [p], true, st⟩ := by
      simp [teardownStep]
    rw [hstep, ih (delivered ++ [p])]
    simp

/-- C7: starting a teardown in any non-`Disconnected` state with any list
of buffered output notifications, (a) whenever the procedure is observed
in the `Disconnected` state — after any number of steps — the buffer is
empty, the Transport is closed, and every notification that was buffered
when disconnect was requested has been delivered to the subscriber, in
order; and (b) the procedure does reach exactly that state: after
`pending.length + 2` steps all buffered notifications are delivered and
the state is `Disconnected` with the Transport closed. -/
theorem C7_disconnect_drains (pending : List (List Nat)) (st : ConnState)
    (hst : st ≠ ConnState.disconnected) :
    (∀ n : Nat,
      (teardownRun n ⟨pending, [], true, st⟩).connState
          = ConnState.disconnected →
        (teardownRun n ⟨pending, [], true, st⟩).delivered = pending ∧
        (teardownRun n ⟨pending, [], true, st⟩).transportOpen = false) ∧
    teardownRun (pending.length + 2) ⟨pending, [], true, st⟩
      = ⟨[], pending, false, ConnState.disconnected⟩ := by
  constructor
  · intro n hdisc
    have hinv : TeardownInv pending ⟨pending, [], true, st⟩ := by
      refine ⟨by simp, by simp, fun hc => absurd hc hst⟩
    have h := teardownRun_inv pending n _ hinv
    obtain ⟨h1, _, h3⟩ := h
    have hp := h3 hdisc
    refine ⟨?_, hp.2⟩
    rw [hp.1] at h1
    simpa using h1
  · have := teardownRun_drains pending [] st
    simpa using this

/-- Witness for C7 at the spec's scenario: disconnect requested while 3
output notifications are in flight — all 3 are delivered to the subscriber
before the `Disconnected` state is reached. -/
theorem C7_disconnect_drains_witness :
    ((teardownRun 1 ⟨[[1], [2], [3]], [], true, ConnState.running⟩).connState
        = ConnState.disconnected →
      (teardownRun 1 ⟨[[1], [2], [3]], [], true, ConnState.running⟩).delivered
          = [[1], [2], [3]] ∧
      (teardownRun 1 ⟨[[1], [2], [3]], [], true,
        ConnState.running⟩).transportOpen = false) ∧
    teardownRun 5 ⟨[[1], [2], [3]], [], true, ConnState.running⟩
      = ⟨[], [[1], [2], [3]], false, ConnState.disconnected⟩ := by
  have h := C7_disconnect_drains [[1], [2], [3]] ConnState.running (by decide)
  exact ⟨h.1 1, h.2⟩

/-! ## Firmware installation paths (CHANGELOG 1.0.0-alpha.17 / alpha.26) -/

/-- Hub families distinguished by the firmware installer. -/
inductive HubFamily where
  | spike
  | dfuHub
  deriving DecidableEq

/-- A firmware archive (`firmware.zip`): the base binary, the metadata
descriptor, and the optional `main.py` script (optional since
CHANGELOG 1.0.0-alpha.26). -/
structure FirmwareArchive where
  firmwareBase : List Nat
  metadata : List Nat
  mainScript : Option (List Nat)
  deriving DecidableEq

/-- Modelled from the spec: the image the firmware installer writes to a
hub (code not in the source tree).  Per CHANGELOG 1.0.0-alpha.17,
"Firmware binaries for SPIKE hubs are no longer being customized with a
main script and a changed checksum.  Instead, it simply installs
firmware.bin from the CI ZIP file"; for the other (DFU-flashed) hubs the
Firmware Image Builder of spec §4.5 assembles the blob, embedding the
optional script. -/
def installImage (family : HubFamily) (archive : FirmwareArchive) : List Nat :=
  match family with
  | HubFamily.spike => archive.firmwareBase
  | HubFamily.dfuHub =>
      create_firmware_blob archive.firmwareBase archive.metadata
        (archive.mainScript.getD [])

/-- C9: on SPIKE hubs the installer writes the archive's firmware binary
unmodified — the flashed bytes equal the archive's `firmware.bin` bytes,
no script is embedded and no checksum is appended or changed, and the
result does not depend on whether a main script is present in the archive
— even though the builder used for the other hubs does extend the base
binary with metadata, the optional script and a trailing checksum. -/
theorem C9_spike_unmodified (archive : FirmwareArchive) :
    installImage HubFamily.spike archive = archive.firmwareBase ∧
    (∀ s1 s2 : Option (List Nat),
      installImage HubFamily.spike { archive with mainScript := s1 }
        = installImage HubFamily.spike { archive with mainScript := s2 }) ∧
    (installImage HubFamily.dfuHub archive).length
      = archive.firmwareBase.length + archive.metadata.length
          + (archive.mainScript.getD []).length + 4 := by
  refine ⟨rfl, fun s1 s2 => rfl, ?_⟩
  simp [installImage, create_firmware_blob, checksumFieldBytes]
  omega

/-! ## Import flattening (`pybricksdev.inline`, README_inline.md) -/

/-- An identifier occurrence in a script: a qualified reference such as
`myutils.square`, a plain reference, or any other source text. -/
inductive Tok where
  | qualRef (qualifier fn : String)
  | plainRef (fn : String)
  | lit (text : String)
  deriving DecidableEq

/-- An import statement `import module` (`asName = none`) or
`import module as alias` (`asName = some alias`). -/
structure ImportStmt where
  module : String
  asName : Option String
  deriving DecidableEq

/-- A local module: its name and its top-level definitions, each a name
with its body tokens. -/
structure LocalModule where
  name : String
  defs : List (String × List Tok)
  deriving DecidableEq

/-- A multi-file project: the import statements occurring across the
project, the local modules they resolve to, and the main script's body. -/
structure Project where
  imports : List ImportStmt
  modules : List LocalModule
  mainBody : List Tok
  deriving DecidableEq

/-- The flattened single-file output: the inlined (renamed) definitions
followed by the rewritten main body. -/
structure FlatScript where
  defs : List (String × List Tok)
  body : List Tok
  deriving DecidableEq

/-- Modelled from the spec: the name mangling of `inline.flatten`
(README_inline.md): a top-level definition `f` of module `m` is renamed
`m__f` in the single-file output. -/
def mangle (m f : String) : String :=
  m ++ "__" ++ f

/-- The module a qualifier refers to: the first import whose effective
name (its alias if given, else the module name) matches. -/
def resolveQualifier (imports : List ImportStmt) (q : String) : Option String :=
  (imports.find? (fun i => (i.asName.getD i.module) == q)).map
    (fun i => i.module)

/-- Rewrite one token: a qualified reference through an import becomes a
plain reference to the mangled name; everything else is left alone. -/
def rewriteTok (imports : List ImportStmt) : Tok → Tok
  | Tok.qualRef q f =>
      match resolveQualifier imports q with
      | some m => Tok.plainRef (mangle m f)
      | none => Tok.qualRef q f
  | t => t

/-- The alias-consistency rule of README_inline.md: the same module
imported under two different aliases somewhere in the project. -/
def aliasConflict (imports : List ImportStmt) : Bool :=
  imports.any (fun i => imports.any (fun j =>
    i.module == j.module && i.asName != j.asName))

/-- Modelled from the spec: `inline.flatten` (README_inline.md, not in the
source tree).  "If you specify an alias for the import then the alias has
to be the same in all places where the module is imported.  An exception
will be raised if you break this rule."  On success, every imported
module's top-level definitions are inlined under their mangled names and
all references are rewritten. -/
def flatten (p : Project) : Except String FlatScript :=
  if aliasConflict p.imports then
    Except.error "inconsistent import alias"
  else
    Except.ok
      { defs := (p.modules.map (fun m =>
          m.defs.map (fun d =>
            (mangle m.name d.1, d.2.map (rewriteTok p.imports))))).flatten,
        body := p.mainBody.map (rewriteTok p.imports) }

/-- C10: (a) if the same local module is imported under two different
aliases anywhere in the project, flattening raises an exception instead of
producing a flattened script; (b) when flattening succeeds, every
top-level definition `f` of an inlined module `m` appears in the output
under the mangled name `m__f` (with its body rewritten), the main body is
the original body with every reference rewritten, and a qualified
reference through an import is rewritten to a plain reference to the
mangled name. -/
theorem C10_flatten_rules :
    (∀ p : Project, ∀ i ∈ p.imports, ∀ j ∈ p.imports,
      i.module = j.module → i.asName ≠ j.asName →
      flatten p = Except.error "inconsistent import alias") ∧
    (∀ (p : Project) (out : FlatScript), flatten p = Except.ok out →
      (∀ m ∈ p.modules, ∀ d ∈ m.defs,
        (mangle m.name d.1, d.2.map (rewriteTok p.imports)) ∈ out.defs) ∧
      out.body = p.mainBody.map (rewriteTok p.imports) ∧
      (∀ q f m2, resolveQualifier p.imports q = some m2 →
        rewriteTok p.imports (Tok.qualRef q f)
          = Tok.plainRef (mangle m2 f))) := by
  constructor
  · intro p i hi j hj hmod halias
    have hc : aliasConflict p.imports = true := by
      rw [aliasConflict, List.any_eq_true]
      refine ⟨i, hi, ?_⟩
      rw [List.any_eq_true]
      refine ⟨j, hj, ?_⟩
      rw [Bool.and_eq_true, beq_iff_eq, bne_iff_ne]
      exact ⟨hmod, halias⟩
    simp [flatten, hc]
  · intro p out hout
    by_cases hc : aliasConflict p.imports = true
    · simp [flatten, hc] at hout
    · rw [Bool.not_eq_true] at hc
      simp only [flatten, hc, Bool.false_eq_true, if_false, Except.ok.injEq]
        at hout
      refine ⟨?_, ?_, ?_⟩
      · intro m hm d hd
        rw [← hout]
        simp only [List.mem_flatten]
        refine ⟨m.defs.map (fun d =>
          (mangle m.name d.1, d.2.map (rewriteTok p.imports))), ?_, ?_⟩
        · exact List.mem_map_of_mem _ hm
        · exact List.mem_map_of_mem _ hd
      · rw [← hout]
      · intro q f m2 hres
        simp [rewriteTok, hres]

/-- Witness for C10: a project importing module `m` both without an alias
and as `y` is rejected by `flatten`. -/
theorem C10_flatten_rules_witness :
    flatten ⟨[⟨"m", none⟩, ⟨"m", some "y"⟩], [], []⟩
      = Except.error "inconsistent import alias" :=
  C10_flatten_rules.1 ⟨[⟨"m", none⟩, ⟨"m", some "y"⟩], [], []⟩
    ⟨"m", none⟩ (List.mem_cons_self _ _)
    ⟨"m", some "y"⟩ (List.mem_cons_of_mem _ (List.mem_cons_self _ _))
    rfl (by simp)

end Pybricksdev
